import Mathlib

/-!
Verification of the AdvModernCPP teaching repository.

The development shallowly embeds the programs under
src/train/Module_1/samples that the claims concern:

* dataprocesingAlgo_sol.cpp (the solution half of the file): the
  SensorProcessor class with its unordered_map sensor store, the
  location index, and the priority_queue of alerts, together with the
  runTests harness and the exact console output of main.
* stlAlgoPipeline_practice.cpp and stlAlgoPipeline_practice_range.cpp:
  the transaction validation / transformation pipeline, eager
  (copy_if) and lazy (views::filter) variants.
* stlAlgoPractice_3.cpp: the chunked transform_parallel_sim custom
  algorithm.

C++ double values are modelled as rationals; the values exercised by
the programs are exact decimals, and comparisons against the literal
thresholds (0, 500, 1000) are exact at these values.  unordered_map is
modelled as an association list with insert-or-assign semantics (only
lookup and membership are observable in these programs - no code
iterates an unordered_map).  std::priority_queue is modelled by its
container contract: the queue is materialised as a list ordered so
that the comparator never prefers a later element to an earlier one,
top is the head and pop removes the head.
-/

namespace AdvModernCPP

/-- Sensor reading record of dataprocesingAlgo_sol.cpp (sensorId,
location, sensorType, value); the double value is modelled as ℚ. -/
structure SensorReading where
  sensorId : Int
  location : String
  sensorType : String
  value : ℚ
deriving DecidableEq

/-- Alert record of dataprocesingAlgo_sol.cpp (priority, message, alertType). -/
structure Alert where
  priority : Int
  message : String
  alertType : String
deriving DecidableEq

/-- AlertComparator of dataprocesingAlgo_sol.cpp: a is ordered below b
when a.priority < b.priority, so the max-heap keeps the highest
priority number on top. -/
def AlertComparator (a b : Alert) : Bool :=
  decide (a.priority < b.priority)

/-- push on the priority_queue model: insert the new alert into the
list ordered by the comparator (head = top = greatest element).  This
realises the std::priority_queue contract for the observable
operations top, pop and push. -/
def pqPush (a : Alert) : List Alert → List Alert
  | [] => [a]
  | b :: rest => if AlertComparator b a then a :: b :: rest else b :: pqPush a rest

/-- Queue-order invariant of the priority_queue model: along the list,
priorities never increase, so the head carries a maximal priority. -/
def PQOrdered (q : List Alert) : Prop :=
  q.Pairwise (fun x y => y.priority ≤ x.priority)

/-- insert-or-assign of unordered_map operator[] followed by
assignment: replace the value when the key is present, append a fresh
entry otherwise. -/
def mapAssign {κ ν : Type} [DecidableEq κ] (k : κ) (v : ν) :
    List (κ × ν) → List (κ × ν)
  | [] => [(k, v)]
  | (k1, v1) :: rest =>
    if k1 = k then (k, v) :: rest else (k1, v1) :: mapAssign k v rest

/-- unordered_map find: the value stored at the key, if any. -/
def mapFind {κ ν : Type} [DecidableEq κ] (k : κ) : List (κ × ν) → Option ν
  | [] => none
  | (k1, v1) :: rest => if k1 = k then some v1 else mapFind k rest

/-- locationIndex[loc].push_back(id): operator[] default-constructs an
empty vector for an absent key, then push_back appends the id. -/
def idxPushBack (loc : String) (id : Int) :
    List (String × List Int) → List (String × List Int)
  | [] => [(loc, [id])]
  | (l, ids) :: rest =>
    if l = loc then (l, ids ++ [id]) :: rest else (l, ids) :: idxPushBack loc id rest

/-- State of the SensorProcessor class: sensorData (unordered_map from
id to reading), locationIndex (unordered_map from location to the
vector of ids added there) and the alert priority queue. -/
structure SensorProcessor where
  sensorData : List (Int × SensorReading)
  locationIndex : List (String × List Int)
  alertQueue : List Alert
deriving DecidableEq

/-- Freshly constructed SensorProcessor: all containers empty. -/
def SensorProcessor.init : SensorProcessor :=
  { sensorData := [], locationIndex := [], alertQueue := [] }

/-- Digits printed after the decimal point for the fraction num/den in
[0, 1), long division digit by digit, stopping when the remainder is
exhausted or after k digits (cout default precision; every value this
program prints is an exact short decimal). -/
def fracDigits : Nat → Nat → Nat → String
  | 0, _, _ => ""
  | Nat.succ k, num, den =>
    if num = 0 then ""
    else
      let d := num * 10 / den
      toString d ++ fracDigits k (num * 10 - d * den) den

/-- Default cout rendering of the nonnegative double values this
program prints: integer part, then the fractional digits when the
value is not integral. -/
def fmtVal (q : ℚ) : String :=
  let den := q.den
  let n := q.num.toNat
  let i := n / den
  let rem := n - i * den
  if rem = 0 then toString i else toString i ++ "." ++ fracDigits 6 rem den

/-- addSensorReading: store the reading under its id for O(1) lookup,
append the id to the location index, and print the confirmation line.
Returns the updated processor and the lines printed. -/
def SensorProcessor.addSensorReading (s : SensorProcessor) (reading : SensorReading) :
    SensorProcessor × List String :=
  ({ s with
      sensorData := mapAssign reading.sensorId reading s.sensorData,
      locationIndex := idxPushBack reading.location reading.sensorId s.locationIndex },
   ["Added sensor " ++ toString reading.sensorId ++ " (" ++ reading.sensorType
      ++ ") to " ++ reading.location])

/-- addAlert: push the alert onto the priority queue and print the
confirmation line. -/
def SensorProcessor.addAlert (s : SensorProcessor) (alert : Alert) :
    SensorProcessor × List String :=
  ({ s with alertQueue := pqPush alert s.alertQueue },
   ["Added alert: Priority " ++ toString alert.priority ++ " - " ++ alert.message])

/-- processNextAlert: on an empty queue print the message and leave
the state alone; otherwise report the top (highest-priority) alert in
the specified format and pop it. -/
def SensorProcessor.processNextAlert (s : SensorProcessor) :
    SensorProcessor × List String :=
  match s.alertQueue with
  | [] => (s, ["No alerts to process - queue is empty"])
  | a :: rest =>
    ({ s with alertQueue := rest },
     ["Processing Priority " ++ toString a.priority ++ ": " ++ a.message
        ++ " (" ++ a.alertType ++ ")"])

/-- findSensorById: unordered_map find, a pointer to the stored
reading modelled as some reading, nullptr as none. -/
def SensorProcessor.findSensorById (s : SensorProcessor) (sensorId : Int) :
    Option SensorReading :=
  mapFind sensorId s.sensorData

/-- getSensorsByLocation: look the location up in the index; for each
id found there, push the sensorData entry when present.  An absent
location yields the empty vector. -/
def SensorProcessor.getSensorsByLocation (s : SensorProcessor) (location : String) :
    List SensorReading :=
  match mapFind location s.locationIndex with
  | none => []
  | some ids => ids.filterMap (fun id => mapFind id s.sensorData)

/-- The five readings added by runTests, in call order. -/
def testReadings : List SensorReading :=
  [{ sensorId := 101, location := "Building_A", sensorType := "temperature", value := mkRat 725 10 },
   { sensorId := 102, location := "Building_A", sensorType := "humidity", value := mkRat 452 10 },
   { sensorId := 201, location := "Building_B", sensorType := "temperature", value := mkRat 681 10 },
   { sensorId := 202, location := "Building_B", sensorType := "humidity", value := mkRat 527 10 },
   { sensorId := 301, location := "Building_C", sensorType := "temperature", value := mkRat 743 10 }]

/-- The four alerts added by runTests, in call order. -/
def testAlerts : List Alert :=
  [{ priority := 3, message := "Temperature threshold exceeded", alertType := "WARNING" },
   { priority := 9, message := "Critical system failure", alertType := "CRITICAL" },
   { priority := 1, message := "Low battery detected", alertType := "INFO" },
   { priority := 7, message := "Network connectivity issue", alertType := "ERROR" }]

/-- Apply a sequence of addSensorReading calls, keeping only the state. -/
def addAllReadings (s : SensorProcessor) (rs : List SensorReading) : SensorProcessor :=
  rs.foldl (fun t r => (t.addSensorReading r).1) s

/-- Apply a sequence of addAlert calls, keeping only the state. -/
def addAllAlerts (s : SensorProcessor) (as : List Alert) : SensorProcessor :=
  as.foldl (fun t a => (t.addAlert a).1) s

/-- runTests of the solution file, as a state transformer that also
collects every line written to cout, in order.  Each list element is
one output line (an endl or a lone newline in a literal ends a line). -/
def SensorProcessor.runTests (s : SensorProcessor) : SensorProcessor × List String :=
  let h0 := ["=== Sensor Processing System Tests ===", "", "Adding sensor readings..."]
  let p1 := s.addSensorReading (testReadings.get ⟨0, by decide⟩)
  let p2 := p1.1.addSensorReading (testReadings.get ⟨1, by decide⟩)
  let p3 := p2.1.addSensorReading (testReadings.get ⟨2, by decide⟩)
  let p4 := p3.1.addSensorReading (testReadings.get ⟨3, by decide⟩)
  let p5 := p4.1.addSensorReading (testReadings.get ⟨4, by decide⟩)
  let s5 := p5.1
  let h1 := ["✓ Sensor data added", "", "Testing ID-based lookup..."]
  let lookupLines :=
    match s5.findSensorById 102 with
    | some sensor =>
      ["✓ Found sensor " ++ toString sensor.sensorId ++ " in " ++ sensor.location
         ++ " (value: " ++ fmtVal sensor.value ++ ")"]
    | none => ["✗ Sensor 102 not found"]
  let missingLines :=
    match s5.findSensorById 999 with
    | none => ["✓ Correctly returned nullptr for missing sensor 999"]
    | some _ => ["✗ Should return nullptr for missing sensor"]
  let h2 := ["", "Testing location-based queries..."]
  let buildingASensors := s5.getSensorsByLocation "Building_A"
  let aLines :=
    ("✓ Found " ++ toString buildingASensors.length ++ " sensors in Building_A:") ::
      buildingASensors.map (fun sensor =>
        "  - Sensor " ++ toString sensor.sensorId ++ " (" ++ sensor.sensorType ++ ")")
  let buildingBSensors := s5.getSensorsByLocation "Building_B"
  let bLines := ["✓ Found " ++ toString buildingBSensors.length ++ " sensors in Building_B"]
  let emptySensors := s5.getSensorsByLocation "Building_Z"
  let zLines :=
    ["✓ Found " ++ toString emptySensors.length ++ " sensors in Building_Z (should be 0)"]
  let h3 := ["", "Testing priority alert processing..."]
  let q1 := s5.addAlert (testAlerts.get ⟨0, by decide⟩)
  let q2 := q1.1.addAlert (testAlerts.get ⟨1, by decide⟩)
  let q3 := q2.1.addAlert (testAlerts.get ⟨2, by decide⟩)
  let q4 := q3.1.addAlert (testAlerts.get ⟨3, by decide⟩)
  let h4 := ["", "Processing alerts by priority (highest first):"]
  let r1 := q4.1.processNextAlert
  let r2 := r1.1.processNextAlert
  let r3 := r2.1.processNextAlert
  let r4 := r3.1.processNextAlert
  let h5 := ["", "Trying to process alert from empty queue:"]
  let r5 := r4.1.processNextAlert
  let h6 := ["", "=== Testing Complete ==="]
  (r5.1,
   h0 ++ p1.2 ++ p2.2 ++ p3.2 ++ p4.2 ++ p5.2 ++ h1 ++ lookupLines ++ missingLines
     ++ h2 ++ aLines ++ bLines ++ zLines ++ h3 ++ q1.2 ++ q2.2 ++ q3.2 ++ q4.2
     ++ h4 ++ r1.2 ++ r2.2 ++ r3.2 ++ r4.2 ++ h5 ++ r5.2 ++ h6)

/-- The complete stdout of main: the two banner lines (the second ends
with an explicit newline before the endl, producing a blank line),
then everything runTests prints. -/
def mainOutput : List String :=
  ["=== Sensor Data Processing System ===",
   "Demonstrating STL container selection for efficient data processing",
   ""] ++ (SensorProcessor.init.runTests).2

/-- The EXPECTED COMPLETE OUTPUT comment block at the end of
dataprocesingAlgo_sol.cpp, transcribed line for line (through the
final Testing Complete banner; the PERFORMANCE ANALYSIS notes that
follow in the same comment are commentary, not program output). -/
def expectedCompleteOutput : List String :=
  ["=== Sensor Data Processing System ===",
   "Demonstrating STL container selection for efficient data processing",
   "",
   "=== Sensor Processing System Tests ===",
   "",
   "Adding sensor readings...",
   "Added sensor 101 (temperature) to Building_A",
   "Added sensor 102 (humidity) to Building_A",
   "Added sensor 201 (temperature) to Building_B",
   "Added sensor 202 (humidity) to Building_B",
   "Added sensor 301 (temperature) to Building_C",
   "✓ Sensor data added",
   "",
   "Testing ID-based lookup...",
   "✓ Found sensor 102 in Building_A (value: 45.2)",
   "✓ Correctly returned nullptr for missing sensor 999",
   "",
   "Testing location-based queries...",
   "✓ Found 2 sensors in Building_A:",
   "  - Sensor 101 (temperature)",
   "  - Sensor 102 (humidity)",
   "✓ Found 2 sensors in Building_B",
   "✓ Found 0 sensors in Building_Z (should be 0)",
   "",
   "Testing priority alert processing...",
   "Added alert: Priority 3 - Temperature threshold exceeded",
   "Added alert: Priority 9 - Critical system failure",
   "Added alert: Priority 1 - Low battery detected",
   "Added alert: Priority 7 - Network connectivity issue",
   "",
   "Processing alerts by priority (highest first):",
   "Processing Priority 9: Critical system failure (CRITICAL)",
   "Processing Priority 7: Network connectivity issue (ERROR)",
   "Processing Priority 3: Temperature threshold exceeded (WARNING)",
   "Processing Priority 1: Low battery detected (INFO)",
   "",
   "Trying to process alert from empty queue:",
   "No alerts to process - queue is empty",
   "",
   "=== Testing Complete ==="]

/-- The latest stored reading for an id after a sequence of adds: the
last element of the adds carrying that id, if any. -/
def lastReadingWithId (rs : List SensorReading) (i : Int) : Option SensorReading :=
  (rs.filter (fun r => decide (r.sensorId = i))).getLast?

/-- The vector of ids the location index holds for a location (empty
when the location is absent). -/
def idsAt (m : List (String × List Int)) (L : String) : List Int :=
  (mapFind L m).getD []

/-- The first option when present, otherwise the second. -/
def ofirst {α : Type} : Option α → Option α → Option α
  | some a, _ => some a
  | none, b => b

theorem mapFind_mapAssign {κ ν : Type} [DecidableEq κ] (k i : κ) (v : ν)
    (m : List (κ × ν)) :
    mapFind i (mapAssign k v m) = if k = i then some v else mapFind i m := by
  induction m with
  | nil => simp [mapAssign, mapFind]
  | cons hd tl ih =>
    obtain ⟨k1, v1⟩ := hd
    by_cases h1 : k1 = k
    · by_cases h2 : k = i
      · simp [mapAssign, mapFind, h1, h2]
      · have h3 : ¬ k1 = i := by rw [h1]; exact h2
        simp [mapAssign, mapFind, h1, h2, h3]
    · by_cases h2 : k1 = i
      · have h3 : ¬ k = i := by rw [← h2]; exact fun h => h1 h.symm
        have h4 : ¬ i = k := fun h => h3 h.symm
        simp [mapAssign, mapFind, h1, h2, h3, h4]
      · simp [mapAssign, mapFind, h1, h2, ih]

theorem mapFind_idxPushBack (loc L : String) (id : Int)
    (m : List (String × List Int)) :
    mapFind L (idxPushBack loc id m) =
      if loc = L then some ((mapFind L m).getD [] ++ [id]) else mapFind L m := by
  induction m with
  | nil => by_cases h : loc = L <;> simp [idxPushBack, mapFind, h]
  | cons hd tl ih =>
    obtain ⟨l, ids⟩ := hd
    by_cases h1 : l = loc
    · by_cases h2 : loc = L
      · have h3 : l = L := h1.trans h2
        simp [idxPushBack, mapFind, h1, h2, h3]
      · have h3 : ¬ l = L := by rw [h1]; exact h2
        simp [idxPushBack, mapFind, h1, h2, h3]
    · by_cases h2 : l = L
      · have h3 : ¬ loc = L := by rw [← h2]; exact fun h => h1 h.symm
        have h4 : ¬ L = loc := fun h => h3 h.symm
        simp [idxPushBack, mapFind, h1, h2, h3, h4]
      · simp [idxPushBack, mapFind, h1, h2, ih]

theorem addAllReadings_concat (s : SensorProcessor) (rs : List SensorReading)
    (r : SensorReading) :
    addAllReadings s (rs ++ [r]) = ((addAllReadings s rs).addSensorReading r).1 := by
  simp [addAllReadings, List.foldl_concat]

theorem findSensorById_add (s : SensorProcessor) (r : SensorReading) (i : Int) :
    ((s.addSensorReading r).1).findSensorById i =
      if r.sensorId = i then some r else s.findSensorById i := by
  simp [SensorProcessor.addSensorReading, SensorProcessor.findSensorById,
    mapFind_mapAssign]

theorem findSensorById_addAll (s : SensorProcessor) (rs : List SensorReading)
    (i : Int) :
    (addAllReadings s rs).findSensorById i =
      ofirst (lastReadingWithId rs i) (s.findSensorById i) := by
  induction rs using List.reverseRecOn with
  | nil => simp [addAllReadings, lastReadingWithId, ofirst]
  | append_singleton rs r ih =>
    rw [addAllReadings_concat, findSensorById_add, ih]
    by_cases h : r.sensorId = i
    · simp [lastReadingWithId, List.filter_append, h, ofirst]
    · simp [lastReadingWithId, List.filter_append, h]

theorem idsAt_add (s : SensorProcessor) (r : SensorReading) (L : String) :
    idsAt ((s.addSensorReading r).1).locationIndex L =
      if r.location = L then idsAt s.locationIndex L ++ [r.sensorId]
      else idsAt s.locationIndex L := by
  by_cases h : r.location = L <;>
    simp [SensorProcessor.addSensorReading, idsAt, mapFind_idxPushBack, h]

theorem idsAt_addAll (s : SensorProcessor) (rs : List SensorReading) (L : String) :
    idsAt (addAllReadings s rs).locationIndex L =
      idsAt s.locationIndex L
        ++ (rs.filter (fun r => decide (r.location = L))).map (fun r => r.sensorId) := by
  induction rs using List.reverseRecOn with
  | nil => simp [addAllReadings]
  | append_singleton rs r ih =>
    rw [addAllReadings_concat, idsAt_add, ih]
    by_cases h : r.location = L <;> simp [List.filter_append, h]

theorem getSensorsByLocation_eq_filterMap (s : SensorProcessor) (L : String) :
    s.getSensorsByLocation L =
      (idsAt s.locationIndex L).filterMap (fun id => mapFind id s.sensorData) := by
  unfold SensorProcessor.getSensorsByLocation idsAt
  cases mapFind L s.locationIndex <;> simp

theorem sensorData_addAll_init (rs : List SensorReading) (i : Int) :
    mapFind i (addAllReadings SensorProcessor.init rs).sensorData =
      lastReadingWithId rs i := by
  have h := findSensorById_addAll SensorProcessor.init rs i
  have h0 : SensorProcessor.init.findSensorById i = none := rfl
  rw [h0] at h
  cases hl : lastReadingWithId rs i <;>
    simpa [SensorProcessor.findSensorById, hl, ofirst] using h

theorem mem_idxPushBack (loc : String) (id x : Int) (m : List (String × List Int)) :
    ∀ p ∈ idxPushBack loc id m, x ∈ p.2 → x = id ∨ ∃ q ∈ m, x ∈ q.2 := by
  induction m with
  | nil =>
    intro p hp hx
    simp only [idxPushBack, List.mem_singleton] at hp
    subst hp
    simp only [List.mem_singleton] at hx
    exact Or.inl hx
  | cons hd tl ih =>
    intro p hp hx
    obtain ⟨l, ids⟩ := hd
    by_cases h1 : l = loc
    · simp only [idxPushBack, h1, if_pos] at hp
      rcases List.mem_cons.mp hp with rfl | hp
      · rcases List.mem_append.mp hx with h | h
        · exact Or.inr ⟨(l, ids), by simp, h⟩
        · exact Or.inl (List.mem_singleton.mp h)
      · exact Or.inr ⟨p, List.mem_cons_of_mem _ hp, hx⟩
    · simp only [idxPushBack, h1, if_neg, not_false_iff] at hp
      rcases List.mem_cons.mp hp with rfl | hp
      · exact Or.inr ⟨(l, ids), List.mem_cons_self _ _, hx⟩
      · rcases ih p hp hx with h | ⟨q, hq, hxq⟩
        · exact Or.inl h
        · exact Or.inr ⟨q, List.mem_cons_of_mem _ hq, hxq⟩

theorem mem_locationIndex_addAll (rs : List SensorReading) :
    ∀ p ∈ (addAllReadings SensorProcessor.init rs).locationIndex,
      ∀ x ∈ p.2, ∃ r ∈ rs, r.sensorId = x := by
  induction rs using List.reverseRecOn with
  | nil => simp [addAllReadings, SensorProcessor.init]
  | append_singleton rs r ih =>
    intro p hp x hx
    rw [addAllReadings_concat] at hp
    simp only [SensorProcessor.addSensorReading] at hp
    rcases mem_idxPushBack r.location r.sensorId x _ p hp hx with h | ⟨q, hq, hxq⟩
    · exact ⟨r, by simp, h.symm⟩
    · obtain ⟨r1, hr1, hid⟩ := ih q hq x hxq
      exact ⟨r1, by simp [hr1], hid⟩

theorem length_filterMap_of_isSome {α β : Type} (f : α → Option β) (l : List α)
    (h : ∀ x ∈ l, (f x).isSome) : (l.filterMap f).length = l.length := by
  induction l with
  | nil => simp
  | cons a tl ih =>
    have ha := h a (List.mem_cons_self _ _)
    obtain ⟨b, hb⟩ := Option.isSome_iff_exists.mp ha
    simp [List.filterMap_cons, hb, ih fun x hx => h x (List.mem_cons_of_mem _ hx)]

theorem mem_pqPush (a x : Alert) (q : List Alert) :
    x ∈ pqPush a q ↔ x = a ∨ x ∈ q := by
  induction q with
  | nil => simp [pqPush]
  | cons b rest ih =>
    by_cases h : AlertComparator b a
    · simp [pqPush, h]
    · simp [pqPush, h, ih]
      tauto

theorem pqPush_ordered (a : Alert) (q : List Alert) (h : PQOrdered q) :
    PQOrdered (pqPush a q) := by
  induction q with
  | nil => simp [pqPush, PQOrdered]
  | cons b rest ih =>
    obtain ⟨hb, hrest⟩ := List.pairwise_cons.mp h
    by_cases hc : AlertComparator b a
    · have hba : b.priority < a.priority := by
        simpa [AlertComparator] using hc
      simp only [pqPush, hc, if_pos]
      exact List.Pairwise.cons
        (fun x hx => by
          rcases List.mem_cons.mp hx with rfl | hx
          · exact le_of_lt hba
          · exact le_trans (hb x hx) (le_of_lt hba))
        h
    · have hab : a.priority ≤ b.priority := by
        simpa [AlertComparator, not_lt] using hc
      simp only [pqPush, hc, if_neg, not_false_iff]
      exact List.Pairwise.cons
        (fun x hx => by
          rcases (mem_pqPush a x rest).mp hx with rfl | hx
          · exact hab
          · exact hb x hx)
        (ih hrest)

theorem pqOrdered_head_max (a : Alert) (rest : List Alert)
    (h : PQOrdered (a :: rest)) :
    ∀ b ∈ a :: rest, b.priority ≤ a.priority := by
  intro b hb
  rcases List.mem_cons.mp hb with rfl | hb
  · exact le_refl _
  · exact (List.pairwise_cons.mp h).1 b hb

/-- Claim C1: after the four addAlert calls of runTests with priorities
3, 9, 1, 7, four successive processNextAlert calls process the alerts
in descending priority order 9, 7, 3, 1 (emptying the queue); and in
general, the queue order invariant being preserved by every push,
processNextAlert on a non-empty queue removes and reports an alert
whose priority is maximal among the queued alerts. -/
theorem claim_C1_priority_drain :
    ((addAllAlerts SensorProcessor.init testAlerts).processNextAlert.2
       ++ (addAllAlerts SensorProcessor.init testAlerts).processNextAlert.1.processNextAlert.2
       ++ (addAllAlerts SensorProcessor.init testAlerts).processNextAlert.1.processNextAlert.1.processNextAlert.2
       ++ (addAllAlerts SensorProcessor.init testAlerts).processNextAlert.1.processNextAlert.1.processNextAlert.1.processNextAlert.2 =
        ["Processing Priority 9: Critical system failure (CRITICAL)",
         "Processing Priority 7: Network connectivity issue (ERROR)",
         "Processing Priority 3: Temperature threshold exceeded (WARNING)",
         "Processing Priority 1: Low battery detected (INFO)"] ∧
     (addAllAlerts SensorProcessor.init testAlerts).processNextAlert.1.processNextAlert.1.processNextAlert.1.processNextAlert.1.alertQueue = []) ∧
    (∀ a q, PQOrdered q → PQOrdered (pqPush a q)) ∧
    (∀ (s : SensorProcessor) (a : Alert) (rest : List Alert),
       PQOrdered s.alertQueue → s.alertQueue = a :: rest →
       s.processNextAlert =
           ({ s with alertQueue := rest },
            ["Processing Priority " ++ toString a.priority ++ ": " ++ a.message
               ++ " (" ++ a.alertType ++ ")"]) ∧
         ∀ b ∈ s.alertQueue, b.priority ≤ a.priority) := by
  refine ⟨by decide, fun a q h => pqPush_ordered a q h, ?_⟩
  intro s a rest hord heq
  constructor
  · simp [SensorProcessor.processNextAlert, heq]
  · rw [heq] at hord ⊢
    exact pqOrdered_head_max a rest hord

/-- Witness for claim C1: the general processNextAlert property applied
to a concrete ordered two-alert queue. -/
theorem claim_C1_priority_drain_witness :
    SensorProcessor.processNextAlert
        { sensorData := [], locationIndex := [],
          alertQueue := [{ priority := 9, message := "m9", alertType := "T9" },
                         { priority := 3, message := "m3", alertType := "T3" }] } =
      ({ sensorData := [], locationIndex := [],
         alertQueue := [{ priority := 3, message := "m3", alertType := "T3" }] },
       ["Processing Priority 9: m9 (T9)"]) :=
  (claim_C1_priority_drain.2.2
      { sensorData := [], locationIndex := [],
        alertQueue := [{ priority := 9, message := "m9", alertType := "T9" },
                       { priority := 3, message := "m3", alertType := "T3" }] }
      { priority := 9, message := "m9", alertType := "T9" }
      [{ priority := 3, message := "m3", alertType := "T3" }]
      (by unfold PQOrdered; decide) rfl).1

/-- Claim C2: findSensorById returns none (nullptr) iff no reading with
that sensorId has been stored; otherwise it returns the stored reading
for that id (the latest one added under that id); in particular, after
the runTests readings 101, 102, 201, 202, 301 are added,
findSensorById 999 returns none. -/
theorem claim_C2_find_by_id :
    (∀ (rs : List SensorReading) (i : Int),
       ((addAllReadings SensorProcessor.init rs).findSensorById i = none ↔
          ∀ r ∈ rs, r.sensorId ≠ i) ∧
       (∀ r, (addAllReadings SensorProcessor.init rs).findSensorById i = some r →
          r.sensorId = i ∧ lastReadingWithId rs i = some r)) ∧
    (addAllReadings SensorProcessor.init testReadings).findSensorById 999 = none := by
  refine ⟨fun rs i => ?_, by decide⟩
  have hfind : (addAllReadings SensorProcessor.init rs).findSensorById i =
      lastReadingWithId rs i := by
    rw [findSensorById_addAll]
    cases lastReadingWithId rs i <;> rfl
  constructor
  · rw [hfind]
    unfold lastReadingWithId
    rw [List.getLast?_eq_none_iff, List.filter_eq_nil_iff]
    simp
  · intro r h
    rw [hfind] at h
    refine ⟨?_, h⟩
    have hmem := List.mem_of_mem_getLast? h
    exact of_decide_eq_true (List.mem_filter.mp hmem).2

/-- Witness for claim C2: the lookup of id 102 after the runTests adds
returns the stored Building_A humidity reading, the latest add with
that id. -/
theorem claim_C2_find_by_id_witness :
    ({ sensorId := 102, location := "Building_A", sensorType := "humidity",
       value := mkRat 452 10 } : SensorReading).sensorId = 102 ∧
      lastReadingWithId testReadings 102 =
        some { sensorId := 102, location := "Building_A", sensorType := "humidity",
               value := mkRat 452 10 } :=
  (claim_C2_find_by_id.1 testReadings 102).2
    { sensorId := 102, location := "Building_A", sensorType := "humidity",
      value := mkRat 452 10 }
    (by decide)

/-- Claim C3: for every location with no addSensorReading call,
getSensorsByLocation returns the empty vector; in particular, after
the runTests adds (Building_A, Building_B, Building_C only),
getSensorsByLocation of Building_Z is empty. -/
theorem claim_C3_unknown_location :
    (∀ (rs : List SensorReading) (L : String),
       (∀ r ∈ rs, r.location ≠ L) →
       (addAllReadings SensorProcessor.init rs).getSensorsByLocation L = []) ∧
    (addAllReadings SensorProcessor.init testReadings).getSensorsByLocation
        "Building_Z" = [] := by
  refine ⟨fun rs L h => ?_, by decide⟩
  rw [getSensorsByLocation_eq_filterMap, idsAt_addAll]
  have hnil : rs.filter (fun r => decide (r.location = L)) = [] := by
    rw [List.filter_eq_nil_iff]
    intro r hr
    simpa using h r hr
  simp [hnil, idsAt, SensorProcessor.init, mapFind]

/-- Witness for claim C3: the general empty-location property applied
to the concrete runTests readings and Building_Z. -/
theorem claim_C3_unknown_location_witness :
    (addAllReadings SensorProcessor.init testReadings).getSensorsByLocation
        "Building_Z" = [] :=
  claim_C3_unknown_location.1 testReadings "Building_Z" (by decide)

/-- Claim C4: processNextAlert on an empty queue prints the message
and returns with the entire state (alert queue, sensor map and
location index) unchanged. -/
theorem claim_C4_empty_queue (s : SensorProcessor) (h : s.alertQueue = []) :
    s.processNextAlert = (s, ["No alerts to process - queue is empty"]) := by
  simp [SensorProcessor.processNextAlert, h]

/-- Witness for claim C4: the empty-queue property at the initial
(empty) processor. -/
theorem claim_C4_empty_queue_witness :
    SensorProcessor.init.processNextAlert =
      (SensorProcessor.init, ["No alerts to process - queue is empty"]) :=
  claim_C4_empty_queue SensorProcessor.init rfl

/-- Claim C8: the sensor-processor solution program writes to standard
output exactly the lines of the EXPECTED COMPLETE OUTPUT comment block
at the end of its source file, in order. -/
theorem claim_C8_expected_output : mainOutput = expectedCompleteOutput := by
  decide

/-- Claim C10: after any sequence of addSensorReading calls, every
sensor id stored in a locationIndex entry is a key of sensorData;
getSensorsByLocation L returns one pointer per add whose reading had
location L, in call order, each pointing at the latest reading stored
under that id (so a repeated id yields multiple pointers to the same
latest reading); and sensorData holds exactly the latest reading per
id. -/
theorem claim_C10_index_invariant (rs : List SensorReading) :
    (∀ p ∈ (addAllReadings SensorProcessor.init rs).locationIndex,
       ∀ id ∈ p.2,
         mapFind id (addAllReadings SensorProcessor.init rs).sensorData ≠ none) ∧
    (∀ L : String,
       (addAllReadings SensorProcessor.init rs).getSensorsByLocation L =
           (rs.filter (fun r => decide (r.location = L))).filterMap
             (fun r => lastReadingWithId rs r.sensorId) ∧
         ((addAllReadings SensorProcessor.init rs).getSensorsByLocation L).length =
           (rs.filter (fun r => decide (r.location = L))).length) ∧
    (∀ i : Int,
       mapFind i (addAllReadings SensorProcessor.init rs).sensorData =
         lastReadingWithId rs i) := by
  have hlast : ∀ r ∈ rs, (lastReadingWithId rs r.sensorId).isSome := by
    intro r hr
    have hmem : r ∈ rs.filter (fun x => decide (x.sensorId = r.sensorId)) :=
      List.mem_filter.mpr ⟨hr, by simp⟩
    exact List.getLast?_isSome.mpr (List.ne_nil_of_mem hmem)
  refine ⟨?_, fun L => ?_, sensorData_addAll_init rs⟩
  · intro p hp id hid
    obtain ⟨r, hr, hrid⟩ := mem_locationIndex_addAll rs p hp id hid
    rw [sensorData_addAll_init]
    intro hnone
    have hsome : (lastReadingWithId rs id).isSome := by
      subst hrid
      exact hlast r hr
    rw [hnone] at hsome
    exact Bool.noConfusion hsome
  · have hget : (addAllReadings SensorProcessor.init rs).getSensorsByLocation L =
        (rs.filter (fun r => decide (r.location = L))).filterMap
          (fun r => lastReadingWithId rs r.sensorId) := by
      rw [getSensorsByLocation_eq_filterMap, idsAt_addAll]
      have hinit : idsAt SensorProcessor.init.locationIndex L = [] := rfl
      rw [hinit, List.nil_append, List.filterMap_map]
      refine List.filterMap_congr ?_
      intro r hr
      exact sensorData_addAll_init rs r.sensorId
    refine ⟨hget, ?_⟩
    rw [hget]
    exact length_filterMap_of_isSome _ _
      (fun r hr => hlast r (List.mem_of_mem_filter hr))

/-- Witness for claim C10: after the runTests adds, the id 101 indexed
under Building_A is indeed a key of sensorData. -/
theorem claim_C10_index_invariant_witness :
    mapFind 101 (addAllReadings SensorProcessor.init testReadings).sensorData ≠
      none :=
  (claim_C10_index_invariant testReadings).1
    ("Building_A", [101, 102]) (by decide) 101 (by decide)

/-! Transaction pipeline (stlAlgoPipeline_practice.cpp and the
range variant stlAlgoPipeline_practice_range.cpp) -/

/-- TAX_RATE constant 0.08 of the pipeline files. -/
def TAX_RATE : ℚ := mkRat 8 100

/-- DISCOUNT_THRESHOLD constant 1000.0 of the pipeline files. -/
def DISCOUNT_THRESHOLD : ℚ := 1000

/-- DISCOUNT_RATE constant 0.10 of the pipeline files. -/
def DISCOUNT_RATE : ℚ := mkRat 10 100

/-- Transaction record of the pipeline files; double fields are
modelled as rationals. -/
structure Transaction where
  id : Int
  customerId : String
  amount : ℚ
  region : String
  taxAmount : ℚ
  discount : ℚ
  finalTotal : ℚ
deriving DecidableEq

/-- The Transaction constructor: derived fields initialise to
taxAmount 0, discount 0, finalTotal = amount. -/
def Transaction.make (i : Int) (cust : String) (amt : ℚ) (reg : String) :
    Transaction :=
  { id := i, customerId := cust, amount := amt, region := reg,
    taxAmount := 0, discount := 0, finalTotal := amt }

/-- hasValidAmount of stlAlgoPipeline_practice.cpp: amount > 0. -/
def hasValidAmount (t : Transaction) : Bool :=
  decide (0 < t.amount)

/-- hasValidCustomer of stlAlgoPipeline_practice.cpp:
customerId.length() > 0. -/
def hasValidCustomer (t : Transaction) : Bool :=
  decide (0 < t.customerId.length)

/-- IsValidTransaction function object of stlAlgoPipeline_practice.cpp:
hasValidAmount(t) && hasValidCustomer(t). -/
def IsValidTransaction (t : Transaction) : Bool :=
  hasValidAmount t && hasValidCustomer t

/-- IsValidTransaction function object of the range variant:
t.amount > 0 && !t.customerId.empty(). -/
def IsValidTransactionRange (t : Transaction) : Bool :=
  decide (0 < t.amount) && !t.customerId.isEmpty

/-- std::copy_if with a back_inserter: walk the range in order,
appending each element satisfying the predicate. -/
def copy_if {α : Type} (p : α → Bool) : List α → List α
  | [] => []
  | x :: xs => if p x then x :: copy_if p xs else copy_if p xs

/-- std::count_if: the number of elements satisfying the predicate. -/
def count_if {α : Type} (p : α → Bool) : List α → Nat
  | [] => 0
  | x :: xs => (if p x then 1 else 0) + count_if p xs

/-- Observable result of filterValidTransactions: the vector stored in
validTransactions and the reported invalid count. -/
structure FilterResult where
  validTransactions : List Transaction
  invalidCount : Nat
deriving DecidableEq

/-- filterValidTransactions of stlAlgoPipeline_practice.cpp: copy_if
with IsValidTransaction into validTransactions (after clear), and
count_if with the negated predicate for the invalid statistic. -/
def filterValidTransactions (raw : List Transaction) : FilterResult :=
  { validTransactions := copy_if (fun t => IsValidTransaction t) raw,
    invalidCount := count_if (fun t => !IsValidTransaction t) raw }

/-- CalculateDerivedValues function object (identical in both pipeline
files): taxAmount = amount * TAX_RATE, discount = amount *
DISCOUNT_RATE when amount > DISCOUNT_THRESHOLD else 0, finalTotal =
amount + taxAmount - discount; the remaining fields pass through. -/
def CalculateDerivedValues (t : Transaction) : Transaction :=
  let tax := t.amount * TAX_RATE
  let disc := if DISCOUNT_THRESHOLD < t.amount then t.amount * DISCOUNT_RATE else 0
  { t with taxAmount := tax, discount := disc,
           finalTotal := t.amount + tax - disc }

/-- One advance of a views::filter iterator over the remaining part of
the underlying range: skip elements failing the predicate until one
matches, yielding it and the rest, or reach the end. -/
def filterViewNext {α : Type} (p : α → Bool) : List α → Option (α × List α)
  | [] => none
  | x :: xs => if p x then some (x, xs) else filterViewNext p xs

theorem filterViewNext_length {α : Type} (p : α → Bool) :
    ∀ (l rest : List α) (x : α),
      filterViewNext p l = some (x, rest) → rest.length < l.length := by
  intro l
  induction l with
  | nil => intro rest x h; simp [filterViewNext] at h
  | cons a tl ih =>
    intro rest x h
    by_cases hp : p a
    · simp only [filterViewNext, hp, if_pos, Option.some.injEq, Prod.mk.injEq] at h
      rw [← h.2]
      exact Nat.lt_succ_self _
    · simp only [filterViewNext, hp, if_neg, not_false_iff] at h
      exact Nat.lt_succ_of_lt (ih rest x h)

/-- Materialisation of the lazy pipeline rawTransactions |
views::filter(isValid) into a vector (ranges::to): advance the filter
view iterator step by step, collecting each element it yields.  The
fuel argument bounds the number of advances; each advance consumes at
least one underlying element, so length + 1 advances always reach the
end. -/
def materializeFilterViewFuel {α : Type} (p : α → Bool) : Nat → List α → List α
  | 0, _ => []
  | Nat.succ fuel, l =>
    match filterViewNext p l with
    | none => []
    | some (x, rest) => x :: materializeFilterViewFuel p fuel rest

/-- ranges::to<vector> of the filter view over the whole range. -/
def materializeFilterView {α : Type} (p : α → Bool) (l : List α) : List α :=
  materializeFilterViewFuel p (l.length + 1) l

/-- filterValidTransactions of the range variant: the lazy filter view
materialised into validTransactions, and the same count_if statistic. -/
def filterValidTransactionsRange (raw : List Transaction) : FilterResult :=
  { validTransactions :=
      materializeFilterView (fun t => IsValidTransactionRange t) raw,
    invalidCount := count_if (fun t => !IsValidTransactionRange t) raw }

/-! Custom chunked transform (stlAlgoPractice_3.cpp) -/

/-- The chunk loop of transform_parallel_sim with chunk size k + 1:
transform the first min(k + 1, remaining) elements, then continue on
the rest. -/
def chunkedGo {α β : Type} (op : α → β) (k : Nat) : List α → List β
  | [] => []
  | x :: xs => (x :: xs.take k).map op ++ chunkedGo op k (xs.drop k)
termination_by l => l.length
decreasing_by
  simp only [List.length_drop, List.length_cons]
  omega

/-- transform_parallel_sim of stlAlgoPractice_3.cpp: chunk size
max(1, distance/4) (simulating 4 threads), each chunk processed by
std::transform. -/
def transform_parallel_sim {α β : Type} (op : α → β) (l : List α) : List β :=
  chunkedGo op (max 1 (l.length / 4) - 1) l

/-- std::transform over a whole range with a unary operation. -/
def stdTransform {α β : Type} (op : α → β) : List α → List β
  | [] => []
  | x :: xs => op x :: stdTransform op xs

theorem string_length_pos_iff (s : String) : 0 < s.length ↔ s ≠ "" := by
  rw [← String.length_data]
  cases s with
  | mk data => cases data <;> simp [String.ext_iff]

theorem copy_if_eq_filter {α : Type} (p : α → Bool) (l : List α) :
    copy_if p l = l.filter p := by
  induction l with
  | nil => rfl
  | cons x xs ih => by_cases h : p x <;> simp [copy_if, List.filter_cons, h, ih]

theorem count_if_eq_length_filter {α : Type} (p : α → Bool) (l : List α) :
    count_if p l = (l.filter p).length := by
  induction l with
  | nil => rfl
  | cons x xs ih =>
    by_cases h : p x <;> simp [count_if, List.filter_cons, h, ih, Nat.add_comm]

theorem filter_eq_filterViewNext {α : Type} (p : α → Bool) (l : List α) :
    l.filter p = match filterViewNext p l with
      | none => []
      | some (x, rest) => x :: rest.filter p := by
  induction l with
  | nil => rfl
  | cons a tl ih =>
    by_cases h : p a
    · simp [filterViewNext, List.filter_cons, h]
    · simp only [filterViewNext, List.filter_cons, h, if_neg, not_false_iff,
        Bool.false_eq_true, ite_false]
      exact ih

theorem materializeFilterViewFuel_eq_filter {α : Type} (p : α → Bool) :
    ∀ (fuel : Nat) (l : List α), l.length < fuel →
      materializeFilterViewFuel p fuel l = l.filter p := by
  intro fuel
  induction fuel with
  | zero => intro l hl; exact absurd hl (Nat.not_lt_zero _)
  | succ fuel ih =>
    intro l hl
    rw [filter_eq_filterViewNext]
    cases hnext : filterViewNext p l with
    | none => simp [materializeFilterViewFuel, hnext]
    | some pair =>
      obtain ⟨x, rest⟩ := pair
      have hrest : rest.length < fuel :=
        Nat.lt_of_lt_of_le (filterViewNext_length p l rest x hnext)
          (Nat.lt_succ_iff.mp hl)
      simp [materializeFilterViewFuel, hnext, ih rest hrest]

theorem materializeFilterView_eq_filter {α : Type} (p : α → Bool) (l : List α) :
    materializeFilterView p l = l.filter p :=
  materializeFilterViewFuel_eq_filter p (l.length + 1) l (Nat.lt_succ_self _)

theorem isValidRange_eq_isValid (t : Transaction) :
    IsValidTransactionRange t = IsValidTransaction t := by
  unfold IsValidTransactionRange IsValidTransaction hasValidAmount hasValidCustomer
  by_cases h : t.customerId = ""
  · have h1 : t.customerId.isEmpty = true := (String.isEmpty_iff t.customerId).mpr h
    have h2 : ¬ 0 < t.customerId.length := by
      rw [string_length_pos_iff]
      simpa using h
    simp [h1, h2]
  · have h1 : t.customerId.isEmpty = false := by
      rw [Bool.eq_false_iff, ne_eq, String.isEmpty_iff]
      exact h
    have h2 : 0 < t.customerId.length := (string_length_pos_iff _).mpr h
    simp [h1, h2]

theorem stdTransform_eq_map {α β : Type} (op : α → β) (l : List α) :
    stdTransform op l = l.map op := by
  induction l with
  | nil => rfl
  | cons x xs ih => simp [stdTransform, ih]

theorem chunkedGo_eq_map {α β : Type} (op : α → β) (k : Nat) :
    ∀ (n : Nat) (l : List α), l.length ≤ n → chunkedGo op k l = l.map op := by
  intro n
  induction n with
  | zero =>
    intro l hl
    rw [List.length_eq_zero.mp (Nat.le_zero.mp hl)]
    simp [chunkedGo]
  | succ n ih =>
    intro l hl
    cases l with
    | nil => simp [chunkedGo]
    | cons x xs =>
      rw [chunkedGo, ih (xs.drop k)
        (by simp only [List.length_drop, List.length_cons] at hl ⊢; omega)]
      rw [← List.map_append]
      rw [show x :: xs.take k ++ xs.drop k = x :: xs by
        simp [List.take_append_drop]]

/-- Claim C5: the pipeline validity predicate IsValidTransaction,
equal to hasValidAmount && hasValidCustomer, holds exactly when
amount > 0 and customerId is non-empty; filterValidTransactions stores
in validTransactions exactly the raw transactions satisfying it, in
their original order, and reports as invalid count the number of raw
transactions failing it. -/
theorem claim_C5_filter_valid :
    (∀ t : Transaction,
       (IsValidTransaction t = true ↔ 0 < t.amount ∧ t.customerId ≠ "") ∧
       IsValidTransaction t = (hasValidAmount t && hasValidCustomer t)) ∧
    (∀ raw : List Transaction,
       (filterValidTransactions raw).validTransactions =
           raw.filter (fun t => IsValidTransaction t) ∧
       (filterValidTransactions raw).invalidCount =
           (raw.filter (fun t => !IsValidTransaction t)).length) := by
  constructor
  · intro t
    refine ⟨?_, rfl⟩
    unfold IsValidTransaction hasValidAmount hasValidCustomer
    rw [Bool.and_eq_true, decide_eq_true_iff, decide_eq_true_iff,
      string_length_pos_iff]
  · intro raw
    exact ⟨copy_if_eq_filter _ raw, count_if_eq_length_filter _ raw⟩

/-- Claim C6: CalculateDerivedValues sets taxAmount to amount * 0.08,
discount to amount * 0.10 when amount > 1000 and 0 otherwise, and
finalTotal to amount + taxAmount - discount, leaving id, customerId,
amount and region unchanged. -/
theorem claim_C6_derived_values (t : Transaction) :
    (CalculateDerivedValues t).taxAmount = t.amount * (8 / 100 : ℚ) ∧
    (CalculateDerivedValues t).discount =
        (if 1000 < t.amount then t.amount * (10 / 100 : ℚ) else 0) ∧
    (CalculateDerivedValues t).finalTotal =
        t.amount + (CalculateDerivedValues t).taxAmount
          - (CalculateDerivedValues t).discount ∧
    (CalculateDerivedValues t).id = t.id ∧
    (CalculateDerivedValues t).customerId = t.customerId ∧
    (CalculateDerivedValues t).amount = t.amount ∧
    (CalculateDerivedValues t).region = t.region := by
  have htax : TAX_RATE = (8 / 100 : ℚ) := by
    unfold TAX_RATE
    rw [Rat.mkRat_eq_div]
    norm_num
  have hdisc : DISCOUNT_RATE = (10 / 100 : ℚ) := by
    unfold DISCOUNT_RATE
    rw [Rat.mkRat_eq_div]
    norm_num
  refine ⟨?_, ?_, ?_, rfl, rfl, rfl, rfl⟩
  · simp [CalculateDerivedValues, htax]
  · simp [CalculateDerivedValues, hdisc, DISCOUNT_THRESHOLD]
  · simp [CalculateDerivedValues]

/-- Claim C7: for every rawTransactions vector, materialising the lazy
views::filter pipeline of the range-based filterValidTransactions
produces exactly the validTransactions vector of the eager
copy_if-based traditional version, element for element and in order. -/
theorem claim_C7_lazy_matches_eager (raw : List Transaction) :
    (filterValidTransactionsRange raw).validTransactions =
      (filterValidTransactions raw).validTransactions := by
  unfold filterValidTransactionsRange filterValidTransactions
  rw [materializeFilterView_eq_filter, copy_if_eq_filter]
  exact List.filter_congr fun t _ => isValidRange_eq_isValid t

/-- Claim C9: transform_parallel_sim writes exactly the output
sequence of std::transform and ends at the same output position (the
output lengths agree), for every input range and unary operation. -/
theorem claim_C9_chunked_transform {α β : Type} (op : α → β) (l : List α) :
    transform_parallel_sim op l = stdTransform op l ∧
    (transform_parallel_sim op l).length = l.length := by
  have h : transform_parallel_sim op l = l.map op :=
    chunkedGo_eq_map op _ l.length l (le_refl _)
  rw [h, stdTransform_eq_map]
  simp

end AdvModernCPP
